import Mathlib

/-!
Verification development for `sims/vcs/run_parallel_tests.py`, the parallel
RISC-V DV test runner.  The Python source is shallowly embedded: strings are
lists of characters, a log file is a list of lines, the external `make`
command supervised by `run_single_test` is abstracted by a `Behavior`
describing how it reacts to supervision, and the signals the driver sends are
recorded as an explicit event trace.
-/

namespace RPT

/-- Strings are modelled as lists of characters (Python `str`). -/
abbrev Str := List Char

/-- A log file is a list of lines (as iterated by `for line in f`). -/
abbrev Log := List Str

/-- Search for the first occurrence of the literal `pat` in `s`; on success
return the remainder of `s` after that occurrence.  This is the semantics of
locating one literal component of a regex such as `Fatal:.*TestDriver`. -/
def splitFirst (pat : Str) : Str → Option Str
  | [] => if pat = [] then some [] else none
  | c :: rest =>
    if pat.isPrefixOf (c :: rest) then some ((c :: rest).drop pat.length)
    else splitFirst pat rest

/-- `s` contains the literal substring `pat` (Python `re.search` on a literal). -/
def containsSub (s pat : Str) : Bool := (splitFirst pat s).isSome

/-- `s` matches the regex `p₁.*p₂.*…*pₙ` for literal parts `pᵢ`: the parts
occur in `s` in order, without overlap. -/
def seqContains (s : Str) : List Str → Bool
  | [] => true
  | p :: ps =>
    match splitFirst p s with
    | none => false
    | some rest => seqContains rest ps

/-- ASCII lowercasing of a string (used to model `re.IGNORECASE`). -/
def lowerL (s : Str) : Str := s.map Char.toLower

/-- A line matches the simulator max-cycle fatal marker
`Fatal:.*TestDriver.*at time.*ps` used at line 134 of the source.
`check_log_for_pattern` compiles this pattern case-sensitively, since its
lowercasing contains no `error` substring. -/
def matchFatalPs (line : Str) : Bool :=
  seqContains line [ "Fatal:".data, "TestDriver".data, "at time".data, "ps".data]

/-- A line matches the weaker fatal marker `Fatal:.*TestDriver.*at time`
(no trailing `ps`) used in the negated conjunct at line 138 of the source. -/
def matchFatal (line : Str) : Bool :=
  seqContains line [ "Fatal:".data, "TestDriver".data, "at time".data]

/-- A line matches the error/assertion marker `Error:|Assertion failed`.
Because the pattern's lowercasing contains `error`, `check_log_for_pattern`
compiles it with `re.IGNORECASE`, so both alternatives match case-insensitively. -/
def matchError (line : Str) : Bool :=
  containsSub (lowerL line) ( "error:".data) || containsSub (lowerL line) ( "assertion failed".data)

/-- `check_log_for_pattern`: some line of the log matches the pattern. -/
def checkLog (f : Str → Bool) (log : Log) : Bool := log.any f

/-- Terminal status of a test (`run_single_test`'s `status` variable). -/
inductive Status
  | PASSED
  | FAILED
  | TIMEOUT
  deriving DecidableEq

/-- The result-determination cascade of `run_single_test`
(lines 130–146 of the source), taking the supervisor's exit code and the
completed log. -/
def classify (log : Log) (exitCode : Int) : Status :=
  if exitCode = 124 then .TIMEOUT
  else if checkLog matchFatalPs log then .TIMEOUT
  else if checkLog matchError log && !(checkLog matchFatal log) then .FAILED
  else if exitCode ≠ 0 then .FAILED
  else .PASSED

/-- Modelled from the spec: the classifier exactly as claim C1 words it, where
case 3 negates the *same* max-cycle marker as case 2 (`Fatal:.*TestDriver.*at
time.*ps`) and case 1 keys on the supervisor's `timedOut` flag.  Used only to
compare the claim's wording against `classify`. -/
def specClassify (log : Log) (exitCode : Int) (timedOut : Bool) : Status :=
  if timedOut then .TIMEOUT
  else if checkLog matchFatalPs log then .TIMEOUT
  else if checkLog matchError log && !(checkLog matchFatalPs log) then .FAILED
  else if exitCode ≠ 0 then .FAILED
  else .PASSED

/-- Rendering of a status into the result-file artifact text. -/
def statusText : Status → Str
  | .PASSED => "PASSED".data
  | .FAILED => "FAILED".data
  | .TIMEOUT => "TIMEOUT".data

/-- How the spawned external `make` command reacts to supervision.  The
command is opaque to the driver, so the embedding abstracts it by its
observable interaction with `run_single_test`. -/
inductive Behavior
  /-- `proc.wait(timeout=wall_timeout)` returns `code` within the budget. -/
  | exits (code : Int)
  /-- the command is still running when the wall clock expires
  (`subprocess.TimeoutExpired` is raised) and the group kill succeeds. -/
  | hangs
  /-- an unexpected exception (message `msg`) escapes the supervision region
  after the spawn succeeded, e.g. from `os.killpg`. -/
  | raisesDuring (msg : Str)
  /-- `subprocess.Popen` itself raises; no process handle ever exists. -/
  | spawnFail (msg : Str)

/-- A signal/wait action performed by the driver, distinguishing
process-group-targeted signals (`os.killpg`) from single-process signals
(`Popen.terminate` / `Popen.kill`). -/
inductive Event
  | termGroup (pgid : Nat)
  | killGroup (pgid : Nat)
  | termProc (pid : Nat)
  | killProc (pid : Nat)
  | sleepE (secs : Nat)
  deriving DecidableEq

/-- Result of the supervision region: either the driver obtained an exit code
(`timedOut` records whether it came from the `TimeoutExpired` branch), or an
exception escaped toward the outer handler. -/
inductive SupOutcome
  | done (exitCode : Int) (timedOut : Bool)
  | raised (msg : Str)
  deriving DecidableEq

/-- Lines 103–124 of the source, for an already successful spawn: the handle
`pid` is appended to `active_processes`; on `TimeoutExpired` the driver sends
`SIGTERM` to the process group, sleeps 1 second, sends `SIGKILL` to the same
group, and sets the exit code to 124; the `finally` block removes the handle
from the registry (guarded by membership).  Returns the outcome, the event
trace, and the registry after the call. -/
def supervise (pid : Nat) (b : Behavior) (reg : List Nat) :
    SupOutcome × List Event × List Nat :=
  let reg1 := reg ++ [pid]
  let step : SupOutcome × List Event :=
    match b with
    | .exits c => (.done c false, [])
    | .hangs => (.done 124 true, [.termGroup pid, .sleepE 1, .killGroup pid])
    | .raisesDuring m => (.raised m, [])
    | .spawnFail m => (.raised m, [])
  let reg2 := if pid ∈ reg1 then reg1.erase pid else reg1
  (step.1, step.2, reg2)

/-- The `TestResult` produced by one worker: test name, terminal status, and
the text written to the per-test result artifact (`f"{status}:{test_name}"`). -/
structure TestOutcome where
  name : Str
  status : Status
  resultText : Str
  deriving DecidableEq

/-- `run_single_test` for a test whose stem is `name`: spawn (possibly
failing), supervise, classify the completed log, and write the result
artifact.  The spawn-failure and escaped-exception paths are both caught by
the outer handler (lines 125–128), which records `FAILED:{test_name}`. -/
def runSingleTest (name : Str) (pid : Nat) (b : Behavior) (log : Log)
    (reg : List Nat) : TestOutcome × List Event × List Nat :=
  match b with
  | .spawnFail _ =>
    ({ name := name, status := .FAILED, resultText := "FAILED:".data ++ name }, [], reg)
  | _ =>
    match supervise pid b reg with
    | (.raised _, evs, reg2) =>
      ({ name := name, status := .FAILED, resultText := "FAILED:".data ++ name }, evs, reg2)
    | (.done ec _, evs, reg2) =>
      ({ name := name, status := classify log ec,
         resultText := statusText (classify log ec) ++ ":".data ++ name }, evs, reg2)

/-- The signal sequence issued by `cleanup_handler` (lines 34–55): for each
tracked handle `proc.terminate()` (a single-process `SIGTERM`), then
`time.sleep(1)`, then for each handle `proc.kill()` (a single-process
`SIGKILL`). -/
def cleanupEvents (reg : List Nat) : List Event :=
  reg.map Event.termProc ++ [Event.sleepE 1] ++ reg.map Event.killProc

/-- `cleanup_handler`: the event trace followed by `sys.exit(130)`. -/
def cleanupHandler (reg : List Nat) : List Event × Nat :=
  (cleanupEvents reg, 130)

/-- The process world: each process group, keyed by its leader's pid
(`os.setsid` makes the spawned command its own group leader), with the pids
of every process in the group. -/
abbrev World := List (Nat × List Nat)

/-- The pids belonging to the group led by `g`. -/
def groupMembers (w : World) (g : Nat) : List Nat :=
  match w.find? (fun gm => gm.1 == g) with
  | some gm => gm.2
  | none => []

/-- Which pids a signal event reaches: group-targeted signals reach every
member of the group; process-targeted signals reach only the named pid. -/
def deliveredPids (w : World) : Event → List Nat
  | .termGroup g => groupMembers w g
  | .killGroup g => groupMembers w g
  | .termProc p => [p]
  | .killProc p => [p]
  | .sleepE _ => []

/-- All pids reached by a trace of events. -/
def signaledPids (w : World) (evs : List Event) : List Nat :=
  (evs.map (deliveredPids w)).flatten

/-- Index of the last `.` in a file name, if any (`str.rfind`). -/
def lastDotIdxAux : Str → Nat → Option Nat → Option Nat
  | [], _, acc => acc
  | c :: rest, i, acc =>
    lastDotIdxAux rest (i + 1) (if c = '.' then some i else acc)

/-- Index of the last `.` in a file name, if any. -/
def lastDotIdx (s : Str) : Option Nat := lastDotIdxAux s 0 none

/-- `pathlib.PurePath.stem`: the file name with its last suffix removed; a
dot at position 0 or at the very end does not begin a suffix. -/
def stem (n : Str) : Str :=
  match lastDotIdx n with
  | none => n
  | some i => if 0 < i ∧ i < n.length - 1 then n.take i else n

/-- The keys of an association list modelling a Python `dict`. -/
def keys (d : List (Str × Status)) : List Str := d.map Prod.fst

/-- `results[k] = v` on a Python `dict` kept as an insertion-ordered
association list: an existing key is overwritten in place, a new key is
appended. -/
def dictInsert (d : List (Str × Status)) (k : Str) (v : Status) :
    List (Str × Status) :=
  if d.any (fun kv => kv.1 == k) then
    d.map (fun kv => if kv.1 == k then (k, v) else kv)
  else d ++ [(k, v)]

/-- How one submitted test's future resolves in the `as_completed` loop of
`main` (lines 301–308): either `run_single_test` ran to completion in the
worker (with the given command behavior and resulting log), or
`future.result()` itself raised and the loop records `FAILED` for the file's
stem. -/
inductive WorkerFate
  | runs (b : Behavior) (log : Log)
  | poolExn (msg : Str)

/-- The `as_completed` collection loop: fold the futures into the `results`
dict.  Each test file is identified by its name; `run_single_test` is invoked
on the file's stem (worker-local registry starts empty, pid is irrelevant to
the returned status). -/
def runAllAux : List (Str × WorkerFate) → List (Str × Status) → List (Str × Status)
  | [], d => d
  | (fname, fate) :: rest, d =>
    match fate with
    | .runs b log =>
      let r := runSingleTest (stem fname) 0 b log []
      runAllAux rest (dictInsert d r.1.name r.1.status)
    | .poolExn _ => runAllAux rest (dictInsert d (stem fname) .FAILED)

/-- All futures collected into the `results` dict. -/
def runAll (ts : List (Str × WorkerFate)) : List (Str × Status) := runAllAux ts []

/-- The categorization loop of `main` (lines 318–324): statuses `PASSED` and
`TIMEOUT` go to their own buckets, anything else goes to `failed`. -/
def categorizeAux : List (Str × Status) → List Str × List Str × List Str →
    List Str × List Str × List Str
  | [], acc => acc
  | (n, st) :: rest, (p, f, t) =>
    match st with
    | .PASSED => categorizeAux rest (p ++ [n], f, t)
    | .TIMEOUT => categorizeAux rest (p, f, t ++ [n])
    | .FAILED => categorizeAux rest (p, f ++ [n], t)

/-- Partition the results dict into `(passed, failed, timeouts)`. -/
def categorize (d : List (Str × Status)) : List Str × List Str × List Str :=
  categorizeAux d ([], [], [])

/-- Lines 362–366 of the source: `sys.exit(1)` when `failed` or `timeouts`
is non-empty (Python truthiness of lists), else `sys.exit(0)`. -/
def finalExit (failed timeouts : List Str) : Nat :=
  if failed ≠ [] ∨ timeouts ≠ [] then 1 else 0

/-- Python code-point comparison of strings (`sorted` on same-directory
paths compares their names). -/
def lexLe : Str → Str → Bool
  | [], _ => true
  | _ :: _, [] => false
  | a :: as, b :: bs =>
    if a.toNat < b.toNat then true
    else if b.toNat < a.toNat then false
    else lexLe as bs

/-- One entry of the scanned binary directory: its name and whether it is a
regular file (`test_file.is_file()`). -/
structure DirEntry where
  name : Str
  isFile : Bool
  deriving DecidableEq

/-- Ordering of directory entries used by `sorted(binary_dir.glob(pattern))`. -/
def entLe (a b : DirEntry) : Prop := lexLe a.name b.name = true

instance : DecidableRel entLe := fun a b =>
  inferInstanceAs (Decidable (lexLe a.name b.name = true))

/-- The `--exclude` argument as `collect_tests` consumes it: the empty string
(falsy, check skipped), a compilable expression abstracted by its match
predicate on base names, or an expression whose compilation raises
`re.error`. -/
inductive ExcludeSpec
  | empty
  | valid (f : Str → Bool)
  | invalid

/-- The body of `collect_tests`' loop over the sorted entries: skip
non-files; with an exclusion expression, an invalid one aborts with
`sys.exit(1)` at the first regular file reached, a valid one skips matching
base names; surviving entries are appended in order. -/
def collectGo (excl : ExcludeSpec) : List DirEntry → Except Nat (List DirEntry)
  | [] => .ok []
  | e :: rest =>
    if e.isFile = false then collectGo excl rest
    else
      match excl with
      | .empty =>
        match collectGo .empty rest with
        | .ok l => .ok (e :: l)
        | .error n => .error n
      | .valid f =>
        if f e.name then collectGo (.valid f) rest
        else
          match collectGo (.valid f) rest with
          | .ok l => .ok (e :: l)
          | .error n => .error n
      | .invalid => .error 1

/-- `collect_tests`: iterate over the glob results in sorted order. -/
def collectTests (entries : List DirEntry) (excl : ExcludeSpec) :
    Except Nat (List DirEntry) :=
  collectGo excl (List.insertionSort entLe entries)

/-- How `main` leaves its collection phase (lines 256–260): a fatal
`sys.exit(1)` from inside `collect_tests`, the `"No tests found!"`
`sys.exit(1)`, or a non-empty test list handed to the pool. -/
inductive CollectOutcome
  | fatalInvalid
  | noTests
  | ready (tests : List DirEntry)
  deriving DecidableEq

/-- The collection phase of `main`. -/
def collectPhase (entries : List DirEntry) (excl : ExcludeSpec) : CollectOutcome :=
  match collectTests entries excl with
  | .error _ => .fatalInvalid
  | .ok [] => .noTests
  | .ok ts => .ready ts

/-- First-match-wins evaluation of an ordered rule list; the final rule of
the classifier is an unconditional `PASSED`, so the default is never used. -/
def firstMatchStatus : List (Bool × Status) → Status
  | [] => .PASSED
  | (c, s) :: rest => if c then s else firstMatchStatus rest

/-- The five classifier cases in the order the code applies them, with the
correction claim C1's counterexample forces: case 3 negates the weaker fatal
marker (no trailing `ps`), and the supervisor's timed-out signal is the exit
code 124. -/
def amendedRules (log : Log) (ec : Int) : List (Bool × Status) :=
  [ (decide (ec = 124), .TIMEOUT),
    (checkLog matchFatalPs log, .TIMEOUT),
    (checkLog matchError log && !(checkLog matchFatal log), .FAILED),
    (decide (ec ≠ 0), .FAILED),
    (true, .PASSED) ]

/-! ### Helper lemmas -/

theorem lexLe_total (s t : Str) : lexLe s t = true ∨ lexLe t s = true := by
  induction s generalizing t with
  | nil => left; rfl
  | cons a as ih =>
    cases t with
    | nil => right; rfl
    | cons b bs =>
      rcases Nat.lt_trichotomy a.toNat b.toNat with h | h | h
      · left; simp [lexLe, h]
      · have hba : ¬ b.toNat < a.toNat := by omega
        have hab : ¬ a.toNat < b.toNat := by omega
        rcases ih bs with h1 | h1
        · left; simp [lexLe, hab, hba, h1]
        · right; simp [lexLe, hab, hba, h1]
      · right; simp [lexLe, h]

theorem lexLe_trans {s t u : Str} (h1 : lexLe s t = true) (h2 : lexLe t u = true) :
    lexLe s u = true := by
  induction s generalizing t u with
  | nil => rfl
  | cons a as ih =>
    cases t with
    | nil => simp [lexLe] at h1
    | cons b bs =>
      cases u with
      | nil => simp [lexLe] at h2
      | cons c cs =>
        rcases Nat.lt_trichotomy a.toNat b.toNat with hab | hab | hab
        · rcases Nat.lt_trichotomy b.toNat c.toNat with hbc | hbc | hbc
          · have hac : a.toNat < c.toNat := by omega
            simp [lexLe, hac]
          · have hac : a.toNat < c.toNat := by omega
            simp [lexLe, hac]
          · exfalso
            have hnbc : ¬ b.toNat < c.toNat := by omega
            simp [lexLe, hnbc, hbc] at h2
        · have hnab : ¬ a.toNat < b.toNat := by omega
          have hnba : ¬ b.toNat < a.toNat := by omega
          simp only [lexLe] at h1
          rw [if_neg hnab, if_neg hnba] at h1
          rcases Nat.lt_trichotomy b.toNat c.toNat with hbc | hbc | hbc
          · have hac : a.toNat < c.toNat := by omega
            simp [lexLe, hac]
          · have hnbc : ¬ b.toNat < c.toNat := by omega
            have hncb : ¬ c.toNat < b.toNat := by omega
            have hnac : ¬ a.toNat < c.toNat := by omega
            have hnca : ¬ c.toNat < a.toNat := by omega
            simp only [lexLe] at h2 ⊢
            rw [if_neg hnbc, if_neg hncb] at h2
            rw [if_neg hnac, if_neg hnca]
            exact ih h1 h2
          · exfalso
            have hnbc : ¬ b.toNat < c.toNat := by omega
            simp [lexLe, hnbc, hbc] at h2
        · exfalso
          have hnab : ¬ a.toNat < b.toNat := by omega
          simp [lexLe, hnab, hab] at h1

instance : IsTotal DirEntry entLe := ⟨fun a b => lexLe_total a.name b.name⟩

instance : IsTrans DirEntry entLe := ⟨fun _ _ _ => lexLe_trans⟩

theorem collectGo_empty (l : List DirEntry) :
    collectGo .empty l = .ok (l.filter (fun e => e.isFile)) := by
  induction l with
  | nil => rfl
  | cons e rest ih =>
    by_cases hf : e.isFile = false
    · simp [collectGo, hf, ih, List.filter]
    · have hf2 : e.isFile = true := by revert hf; cases e.isFile <;> simp
      simp [collectGo, hf2, ih, List.filter]

theorem collectGo_valid (f : Str → Bool) (l : List DirEntry) :
    collectGo (.valid f) l = .ok (l.filter (fun e => e.isFile && !(f e.name))) := by
  induction l with
  | nil => rfl
  | cons e rest ih =>
    by_cases hf : e.isFile = false
    · simp [collectGo, hf, ih, List.filter]
    · have hf2 : e.isFile = true := by revert hf; cases e.isFile <;> simp
      by_cases hx : f e.name = true
      · simp [collectGo, hf2, hx, ih, List.filter]
      · have hx2 : f e.name = false := by revert hx; cases f e.name <;> simp
        simp [collectGo, hf2, hx2, ih, List.filter]

theorem collectGo_invalid (l : List DirEntry) (h : ∃ e ∈ l, e.isFile = true) :
    collectGo .invalid l = .error 1 := by
  induction l with
  | nil => simp at h
  | cons e rest ih =>
    by_cases hf : e.isFile = false
    · have : ∃ x ∈ rest, x.isFile = true := by
        rcases h with ⟨x, hx, hxf⟩
        rcases List.mem_cons.mp hx with rfl | hx2
        · rw [hxf] at hf; cases hf
        · exact ⟨x, hx2, hxf⟩
      simp [collectGo, hf, ih this]
    · have hf2 : e.isFile = true := by revert hf; cases e.isFile <;> simp
      simp [collectGo, hf2]

theorem categorizeAux_sum (d : List (Str × Status)) (p f t : List Str) :
    (categorizeAux d (p, f, t)).1.length + (categorizeAux d (p, f, t)).2.1.length +
      (categorizeAux d (p, f, t)).2.2.length = p.length + f.length + t.length + d.length := by
  induction d generalizing p f t with
  | nil => simp [categorizeAux]
  | cons hd rest ih =>
    obtain ⟨n, st⟩ := hd
    cases st <;> simp only [categorizeAux] <;> rw [ih] <;> simp <;> omega

theorem categorizeAux_empty_iff (d : List (Str × Status)) (p f t : List Str) :
    ((categorizeAux d (p, f, t)).2.1 = [] ∧ (categorizeAux d (p, f, t)).2.2 = []) ↔
      (f = [] ∧ t = [] ∧ ∀ x ∈ d, x.2 = Status.PASSED) := by
  induction d generalizing p f t with
  | nil => simp [categorizeAux]
  | cons hd rest ih =>
    obtain ⟨n, st⟩ := hd
    cases st with
    | PASSED =>
      simp only [categorizeAux]
      rw [ih]
      constructor
      · rintro ⟨hf, ht, hall⟩
        refine ⟨hf, ht, ?_⟩
        intro x hx
        rcases List.mem_cons.mp hx with rfl | hx2
        · rfl
        · exact hall x hx2
      · rintro ⟨hf, ht, hall⟩
        exact ⟨hf, ht, fun x hx => hall x (List.mem_cons_of_mem _ hx)⟩
    | FAILED =>
      simp only [categorizeAux]
      rw [ih]
      constructor
      · rintro ⟨hf, -, -⟩
        exact absurd hf (by simp)
      · rintro ⟨-, -, hall⟩
        have h2 := hall (n, Status.FAILED) (List.mem_cons_self _ _)
        simp at h2
    | TIMEOUT =>
      simp only [categorizeAux]
      rw [ih]
      constructor
      · rintro ⟨-, ht, -⟩
        exact absurd ht (by simp)
      · rintro ⟨-, -, hall⟩
        have h2 := hall (n, Status.TIMEOUT) (List.mem_cons_self _ _)
        simp at h2

theorem finalExit_eq_zero_iff (f t : List Str) :
    finalExit f t = 0 ↔ (f = [] ∧ t = []) := by
  unfold finalExit
  by_cases hf : f = [] <;> by_cases ht : t = [] <;> simp [hf, ht]

theorem finalExit_zero_or_one (f t : List Str) :
    finalExit f t = 0 ∨ finalExit f t = 1 := by
  unfold finalExit
  split
  · right; rfl
  · left; rfl

theorem runSingleTest_name (name : Str) (pid : Nat) (b : Behavior) (log : Log)
    (reg : List Nat) : (runSingleTest name pid b log reg).1.name = name := by
  cases b <;> simp [runSingleTest, supervise]

theorem dictInsert_of_fresh (d : List (Str × Status)) (k : Str) (v : Status)
    (h : k ∉ keys d) : dictInsert d k v = d ++ [(k, v)] := by
  have : d.any (fun kv => kv.1 == k) = false := by
    rw [List.any_eq_false]
    intro kv hkv
    simp only [beq_iff_eq]
    intro hk
    exact h (hk ▸ List.mem_map_of_mem Prod.fst hkv)
  simp [dictInsert, this]

theorem keys_append (d1 d2 : List (Str × Status)) :
    keys (d1 ++ d2) = keys d1 ++ keys d2 := by
  simp [keys]

theorem runAllAux_length (ts : List (Str × WorkerFate)) (d : List (Str × Status))
    (hfresh : ∀ x ∈ ts, stem x.1 ∉ keys d)
    (hnd : (ts.map (fun x => stem x.1)).Nodup) :
    (runAllAux ts d).length = d.length + ts.length := by
  induction ts generalizing d with
  | nil => simp [runAllAux]
  | cons hd rest ih =>
    obtain ⟨fname, fate⟩ := hd
    have hfhd : stem fname ∉ keys d := hfresh (fname, fate) (List.mem_cons_self _ _)
    have hnd2 : (rest.map (fun x => stem x.1)).Nodup := (List.nodup_cons.mp hnd).2
    have hne : ∀ x ∈ rest, stem x.1 ≠ stem fname := by
      intro x hx hcontra
      have hmap : stem x.1 ∈ rest.map (fun y => stem y.1) := List.mem_map_of_mem _ hx
      rw [hcontra] at hmap
      exact (List.nodup_cons.mp hnd).1 hmap
    have hfresh2 : ∀ x ∈ rest, stem x.1 ∉ keys (d ++ [(stem fname, Status.FAILED)]) := by
      intro x hx
      rw [keys_append]
      intro hmem
      rcases List.mem_append.mp hmem with hmem | hmem
      · exact hfresh x (List.mem_cons_of_mem _ hx) hmem
      · simp [keys] at hmem
        exact hne x hx hmem
    cases fate with
    | poolExn m =>
      simp only [runAllAux]
      rw [dictInsert_of_fresh d _ _ hfhd, ih _ hfresh2 hnd2]
      simp
      omega
    | runs b log =>
      simp only [runAllAux, runSingleTest_name]
      have hfresh3 : ∀ x ∈ rest, stem x.1 ∉
          keys (d ++ [(stem fname, (runSingleTest (stem fname) 0 b log []).1.status)]) := by
        intro x hx
        rw [keys_append]
        intro hmem
        rcases List.mem_append.mp hmem with hmem | hmem
        · exact hfresh x (List.mem_cons_of_mem _ hx) hmem
        · simp [keys] at hmem
          exact hne x hx hmem
      rw [dictInsert_of_fresh d _ _ hfhd, ih _ hfresh3 hnd2]
      simp
      omega

theorem signaledPids_append (w : World) (e1 e2 : List Event) :
    signaledPids w (e1 ++ e2) = signaledPids w e1 ++ signaledPids w e2 := by
  simp [signaledPids]

theorem signaled_termProc (w : World) (reg : List Nat) :
    signaledPids w (reg.map Event.termProc) = reg := by
  induction reg with
  | nil => rfl
  | cons p rest ih =>
    simp only [signaledPids, List.map_cons, List.flatten_cons] at ih ⊢
    simp [deliveredPids] at ih ⊢
    exact ih

theorem signaled_killProc (w : World) (reg : List Nat) :
    signaledPids w (reg.map Event.killProc) = reg := by
  induction reg with
  | nil => rfl
  | cons p rest ih =>
    simp only [signaledPids, List.map_cons, List.flatten_cons] at ih ⊢
    simp [deliveredPids] at ih ⊢
    exact ih

theorem cleanup_signaled (w : World) (reg : List Nat) :
    signaledPids w (cleanupEvents reg) = reg ++ reg := by
  unfold cleanupEvents
  rw [signaledPids_append, signaledPids_append, signaled_termProc, signaled_killProc]
  simp [signaledPids, deliveredPids]

/-! ### Claim theorems -/

/-- C1 (amended): the classifier applies the five cases in order with first
match winning — timed out (exit code 124) gives TIMEOUT; else a log matching
the max-cycle marker `Fatal:.*TestDriver.*at time.*ps` gives TIMEOUT; else a
log containing an error/assertion marker and not matching the *weaker* fatal
marker `Fatal:.*TestDriver.*at time` (without the trailing `ps`) gives
FAILED; else a non-zero exit code gives FAILED; else PASSED. -/
theorem C1_classifier_cascade : ∀ (log : Log) (ec : Int),
    classify log ec = firstMatchStatus (amendedRules log ec) := by
  intro log ec
  by_cases h1 : ec = 124 <;>
    by_cases h2 : checkLog matchFatalPs log = true <;>
    by_cases h3 : (checkLog matchError log && !(checkLog matchFatal log)) = true <;>
    by_cases h4 : ec ≠ 0 <;>
    simp [classify, amendedRules, firstMatchStatus, h1, h2, h3, h4]

/-- Log with an error marker and a fatal line lacking the trailing `ps`:
the claim's case 3 (which negates the case-2 marker, i.e. with `ps`) demands
FAILED, but the code checks the weaker marker and classifies PASSED at exit
code 0. -/
def exLogC1 : Log := [ "Error: boom".data, "Fatal: TestDriver at time 100".data]

/-- C1 counterexample: at `exLogC1` with exit code 0 (not timed out), the
error/assertion marker is present and the case-2 max-cycle marker is absent,
so the claim's cascade (`specClassify`) yields FAILED — but the code's
classifier yields PASSED. -/
theorem C1_counterexample :
    checkLog matchError exLogC1 = true ∧
    checkLog matchFatalPs exLogC1 = false ∧
    specClassify exLogC1 0 false = Status.FAILED ∧
    classify exLogC1 0 = Status.PASSED := by decide

/-- C2: if the command is still running when the wall clock expires, the
supervisor sends `SIGTERM` to the whole process group, sleeps exactly 1
second, sends `SIGKILL` to the same group, and reports exit code 124 with
`timedOut = true`; if the command exits within the budget, the supervisor
reports its real exit code with `timedOut = false` and sends no signals. -/
theorem C2_supervisor_timeout : ∀ (pid : Nat) (reg : List Nat) (c : Int),
    (supervise pid Behavior.hangs reg).1 = SupOutcome.done 124 true ∧
    (supervise pid Behavior.hangs reg).2.1 =
      [Event.termGroup pid, Event.sleepE 1, Event.killGroup pid] ∧
    (supervise pid (Behavior.exits c) reg).1 = SupOutcome.done c false ∧
    (supervise pid (Behavior.exits c) reg).2.1 = [] :=
  fun _ _ _ => ⟨rfl, rfl, rfl, rfl⟩

/-- C3 (amended): a cancellation request finds every registered process and
sends it a graceful then (after the fixed 1-second grace period) a forceful
termination signal, and the handler exits with status 130 — but the signals
target only the registered pid itself (`Popen.terminate`/`Popen.kill`), not
its whole process group, so only registered pids are ever signaled. -/
theorem C3_cleanup_signals : ∀ (reg : List Nat) (p : Nat), p ∈ reg →
    Event.termProc p ∈ (cleanupHandler reg).1 ∧
    Event.killProc p ∈ (cleanupHandler reg).1 ∧
    (cleanupHandler reg).2 = 130 ∧
    ∀ (w : World) (q : Nat), q ∈ signaledPids w (cleanupHandler reg).1 → q ∈ reg := by
  intro reg p hp
  refine ⟨?_, ?_, rfl, ?_⟩
  · simp [cleanupHandler, cleanupEvents]
    exact hp
  · simp [cleanupHandler, cleanupEvents]
    exact hp
  · intro w q hq
    rw [show (cleanupHandler reg).1 = cleanupEvents reg from rfl,
      cleanup_signaled w reg] at hq
    rcases List.mem_append.mp hq with h | h <;> exact h

/-- C3 witness: with pid 5 registered, the handler signals it twice and
exits 130. -/
theorem C3_cleanup_signals_witness :
    Event.termProc 5 ∈ (cleanupHandler [5]).1 ∧ (cleanupHandler [5]).2 = 130 :=
  ⟨(C3_cleanup_signals [5] 5 (by decide)).1,
   (C3_cleanup_signals [5] 5 (by decide)).2.2.1⟩

/-- World in which registered process 5 leads a group also containing pid 7
(a descendant spawned by the supervised `make`). -/
def exWorldC3 : World := [(5, [5, 7])]

/-- C3 counterexample: the cancellation handler never signals group member 7
of registered process 5 — though a group-targeted termination (as the
supervisor's own timeout path uses) would have reached it — so the process
group is not terminated and a descendant is left running. -/
theorem C3_counterexample :
    7 ∈ groupMembers exWorldC3 5 ∧
    7 ∉ signaledPids exWorldC3 (cleanupHandler [5]).1 ∧
    signaledPids exWorldC3 [Event.termGroup 5] = [5, 7] := by decide

/-- C4 (amended): for every completed run whose submitted test files have
pairwise-distinct stems, every submitted test yields exactly one entry in the
results dict — futures that raise are converted to FAILED — so
`len(passed) + len(failed) + len(timedOut)` equals the number of submitted
tests and no test is dropped. -/
theorem C4_result_count : ∀ (ts : List (Str × WorkerFate)),
    (ts.map (fun x => stem x.1)).Nodup →
    (categorize (runAll ts)).1.length + (categorize (runAll ts)).2.1.length +
      (categorize (runAll ts)).2.2.length = ts.length := by
  intro ts hnd
  have hlen := runAllAux_length ts [] (fun x _ => by simp [keys]) hnd
  simp only [categorize, categorizeAux_sum, runAll]
  simp only [runAllAux] at hlen
  simp [hlen]

/-- C4 witness: two tests with distinct stems, one passing and one whose
future raises, give two tallied results. -/
theorem C4_result_count_witness :
    (categorize (runAll [( "a.o".data, WorkerFate.runs (Behavior.exits 0) []),
        ( "b.o".data, WorkerFate.poolExn ( "boom".data))])).1.length +
      (categorize (runAll [( "a.o".data, WorkerFate.runs (Behavior.exits 0) []),
        ( "b.o".data, WorkerFate.poolExn ( "boom".data))])).2.1.length +
      (categorize (runAll [( "a.o".data, WorkerFate.runs (Behavior.exits 0) []),
        ( "b.o".data, WorkerFate.poolExn ( "boom".data))])).2.2.length = 2 :=
  C4_result_count [( "a.o".data, WorkerFate.runs (Behavior.exits 0) []),
    ( "b.o".data, WorkerFate.poolExn ( "boom".data))] (by decide)

/-- Two submitted test files, `a.o` and `a.bin`, whose stems collide. -/
def exTestsC4 : List (Str × WorkerFate) :=
  [( "a.o".data, WorkerFate.runs (Behavior.exits 0) []),
   ( "a.bin".data, WorkerFate.runs (Behavior.exits 0) [])]

/-- C4 counterexample: the results dict is keyed by the file stem, so the two
submitted tests `a.o` and `a.bin` collapse into one entry and the categorized
counts sum to 1, not 2 — a test is silently dropped from the summary. -/
theorem C4_counterexample :
    exTestsC4.length = 2 ∧
    (categorize (runAll exTestsC4)).1.length + (categorize (runAll exTestsC4)).2.1.length +
      (categorize (runAll exTestsC4)).2.2.length = 1 := by decide

/-- C5: on an interrupt or termination signal the handler terminates then
kills every tracked process, and always ends the whole program with the
distinguished exit status 130 — never a success status, and by construction
it returns no run summary. -/
theorem C5_interrupt_exit : ∀ (reg : List Nat),
    (cleanupHandler reg).2 = 130 ∧ (cleanupHandler reg).2 ≠ 0 ∧
    (cleanupHandler reg).1 =
      reg.map Event.termProc ++ [Event.sleepE 1] ++ reg.map Event.killProc := by
  intro reg
  refine ⟨rfl, ?_, rfl⟩
  simp [cleanupHandler]

/-- C6 (amended): an exception raised while handling one test — spawn
failure, an exception escaping supervision, or a future raising in the
collection loop — is caught and converted into a FAILED TestResult whose
artifact records only `FAILED:` and the test name (the exception text is
printed to the console, not carried in the result), and the pool continues
with the remaining tests. -/
theorem C6_exception_to_failed : ∀ (name : Str) (pid : Nat) (msg : Str) (log : Log)
    (reg : List Nat) (fname : Str) (rest : List (Str × WorkerFate))
    (d : List (Str × Status)),
    (runSingleTest name pid (Behavior.raisesDuring msg) log reg).1.status = Status.FAILED ∧
    (runSingleTest name pid (Behavior.raisesDuring msg) log reg).1.resultText
      = "FAILED:".data ++ name ∧
    (runSingleTest name pid (Behavior.spawnFail msg) log reg).1.status = Status.FAILED ∧
    runAllAux ((fname, WorkerFate.poolExn msg) :: rest) d
      = runAllAux rest (dictInsert d (stem fname) Status.FAILED) ∧
    runAllAux ((fname, WorkerFate.runs (Behavior.raisesDuring msg) log) :: rest) d
      = runAllAux rest (dictInsert d (stem fname) Status.FAILED) :=
  fun _ _ _ _ _ _ _ _ => ⟨rfl, rfl, rfl, rfl, rfl⟩

/-- C6 counterexample: the FAILED TestResult produced for an exception with
text `boom` is `FAILED:t1` — it does not carry the exception text anywhere. -/
theorem C6_counterexample :
    (runSingleTest ( "t1".data) 0 (Behavior.raisesDuring ( "boom".data)) [] []).1.status
      = Status.FAILED ∧
    (runSingleTest ( "t1".data) 0 (Behavior.raisesDuring ( "boom".data)) [] []).1.resultText
      = "FAILED:t1".data ∧
    containsSub
      (runSingleTest ( "t1".data) 0 (Behavior.raisesDuring ( "boom".data)) [] []).1.resultText
      ( "boom".data) = false := by decide

/-- C7: for a fresh process handle, the handle appended to the registry at
spawn is removed again on every exit path of the supervising call — normal
exit, wall-clock timeout, internal failure during supervision, and spawn
failure — so the registry after the call equals the registry before it. -/
theorem C7_registry_clean : ∀ (name : Str) (pid : Nat) (b : Behavior) (log : Log)
    (reg : List Nat), pid ∉ reg → (runSingleTest name pid b log reg).2.2 = reg := by
  intro name pid b log reg hpid
  have herase : (reg ++ [pid]).erase pid = reg := by
    rw [List.erase_append_right _ hpid]
    simp
  cases b <;> simp [runSingleTest, supervise, herase]

/-- C7 witness: a normal exit with fresh pid 3 leaves registry `[7]` intact. -/
theorem C7_registry_clean_witness :
    (runSingleTest ( "t".data) 3 (Behavior.exits 0) [] [7]).2.2 = [7] :=
  C7_registry_clean ( "t".data) 3 (Behavior.exits 0) [] [7] (by decide)

/-- C8 (amended): if at least one regular file matches the glob, an invalid
exclusion expression terminates the run as a fatal configuration error
(`sys.exit(1)`) before any test executes; with no matching regular file the
invalid expression goes undetected and collection returns the empty list
(the run then stops with the no-tests error, still before any test
executes).  Otherwise collection returns the matching regular files in
sorted order, excluding every file whose base name matches the expression,
and the returned list is sorted. -/
theorem C8_collection : ∀ (entries : List DirEntry) (f : Str → Bool),
    ((∃ e ∈ entries, e.isFile = true) →
      collectTests entries ExcludeSpec.invalid = Except.error 1) ∧
    collectTests entries (ExcludeSpec.valid f)
      = Except.ok ((List.insertionSort entLe entries).filter
          (fun e => e.isFile && !(f e.name))) ∧
    collectTests entries ExcludeSpec.empty
      = Except.ok ((List.insertionSort entLe entries).filter (fun e => e.isFile)) ∧
    List.Sorted entLe
      ((List.insertionSort entLe entries).filter (fun e => e.isFile && !(f e.name))) := by
  intro entries f
  refine ⟨?_, collectGo_valid f _, collectGo_empty _, ?_⟩
  · intro ⟨e, he, hef⟩
    apply collectGo_invalid
    exact ⟨e, ((List.perm_insertionSort entLe entries).mem_iff).mpr he, hef⟩
  · exact List.Pairwise.sublist (List.filter_sublist _)
      (List.sorted_insertionSort entLe entries)

/-- C8 witness: with one regular file present, an invalid exclusion
expression makes collection abort with exit code 1. -/
theorem C8_collection_witness :
    collectTests [⟨ "b.o".data, true⟩] ExcludeSpec.invalid = Except.error 1 :=
  (C8_collection [⟨ "b.o".data, true⟩] (fun _ => false)).1 (by decide)

/-- C8 counterexample: when no file matches the glob, collection with an
invalid exclusion expression succeeds with the empty list — the invalid
expression is never reported as a fatal configuration error; the run instead
stops with the no-tests error. -/
theorem C8_counterexample :
    collectTests [] ExcludeSpec.invalid = Except.ok [] ∧
    collectPhase [] ExcludeSpec.invalid = CollectOutcome.noTests := ⟨rfl, rfl⟩

/-- C9: the overall process exit status is 0 iff the failed and timed-out
sets are both empty, which holds iff every tallied test PASSED; otherwise
the status is 1. -/
theorem C9_overall_exit : ∀ (d : List (Str × Status)),
    (finalExit (categorize d).2.1 (categorize d).2.2 = 0 ↔
      ((categorize d).2.1 = [] ∧ (categorize d).2.2 = [])) ∧
    (finalExit (categorize d).2.1 (categorize d).2.2 = 0 ↔
      ∀ x ∈ d, x.2 = Status.PASSED) ∧
    (finalExit (categorize d).2.1 (categorize d).2.2 = 0 ∨
      finalExit (categorize d).2.1 (categorize d).2.2 = 1) := by
  intro d
  refine ⟨finalExit_eq_zero_iff _ _, ?_, finalExit_zero_or_one _ _⟩
  rw [finalExit_eq_zero_iff]
  simp only [categorize]
  rw [categorizeAux_empty_iff d [] [] []]
  constructor
  · rintro ⟨-, -, h⟩
    exact h
  · intro h
    exact ⟨rfl, rfl, h⟩

/-- C9 witness: a run whose only test passed exits 0. -/
theorem C9_overall_exit_witness :
    finalExit (categorize [( "a".data, Status.PASSED)]).2.1
      (categorize [( "a".data, Status.PASSED)]).2.2 = 0 :=
  ((C9_overall_exit [( "a".data, Status.PASSED)]).2.1).mpr (by decide)

/-- C10: a command that exits on its own, within the wall-clock budget, with
exit status 124 produces exactly the same TestResult as a command the wall
clock expired on — both classify as TIMEOUT — because the supervisor's
timed-out signal reaches the classifier only as the exit-code value 124. -/
theorem C10_sentinel_collision : ∀ (name : Str) (pid1 pid2 : Nat) (log : Log)
    (reg1 reg2 : List Nat),
    (runSingleTest name pid1 (Behavior.exits 124) log reg1).1
      = (runSingleTest name pid2 Behavior.hangs log reg2).1 ∧
    (runSingleTest name pid1 (Behavior.exits 124) log reg1).1.status = Status.TIMEOUT := by
  intro name pid1 pid2 log reg1 reg2
  have hcl : classify log 124 = Status.TIMEOUT := by simp [classify]
  constructor <;> simp [runSingleTest, supervise, hcl]

end RPT
